import Mathlib

/-!
Verification of the mcp-server repository: a shallow embedding of its two
JSON-RPC 2.0 dispatchers (the stdio `MCPServer` of src/resources/index.ts and
the Express `McpServer` of src/prompts/index.ts), the HTTP adapter of
src/server.ts, and the JSON-RPC utilities of src/utils (jsonrpc.ts).

Modelling conventions, applied throughout:
  - JavaScript `undefined` for an absent field is `Option.none`; an explicit
    JSON `null` identifier is `RpcId.null`.
  - JavaScript numbers are modelled as integers (`Int`), with `JSNum.nan` for
    NaN produced by `Number(undefined)`.  No theorem below depends on the
    rendering of a non-integral arithmetic result.
  - Handlers that throw are modelled as `Except`: `Except.error` carries the
    thrown value (a plain `createError` object for the stdio server, a plain
    `Error` message string for the Express server).
  - The `new Function(...)` arithmetic evaluation inside
    `McpServer.evaluateExpression` is a call into the JavaScript engine; it is
    abstracted as an explicit parameter `jsEval : String -> Option Int`
    (`none` = the call throws, or returns a non-number / non-finite value).
    The character sanitisation around it is modelled exactly.
  - `new Date().toISOString()` is abstracted as an explicit `now : String`
    parameter.
-/

namespace Mcp

/-! Section: basic JSON-RPC data (src/types/mcp.ts, src/types/index.ts) -/

/-- A JSON-RPC identifier that is present: a string, a number, or JSON null
(`id?: string | number | null`). An absent id is `Option.none` around this. -/
inductive RpcId where
  | str (s : String)
  | num (n : Int)
  | null
deriving DecidableEq, Repr

/-- The `data` field of a JsonRpcError: either a plain string (diagnostic
message) or the object literal `\x7b method \x7d` built by
`createMethodNotFoundError`. -/
inductive DataVal where
  | str (s : String)
  | methodField (m : String)
deriving DecidableEq, Repr

/-- JsonRpcError (src/types/mcp.ts): `code`, `message`, optional `data`. -/
structure RpcError where
  code : Int
  message : String
  data : Option DataVal := none
deriving DecidableEq, Repr

/-- A JavaScript number obtained from `Number(x)`: NaN when `x` is absent,
otherwise the (integer-modelled) numeric value. -/
inductive JSNum where
  | nan
  | num (n : Int)
deriving DecidableEq, Repr

/-- A generic JSON value, used for the declarative `inputSchema` descriptors
stored in the tool registry (the core never interprets them). -/
inductive JsonVal where
  | null
  | bool (b : Bool)
  | num (n : Int)
  | str (s : String)
  | arr (xs : List JsonVal)
  | obj (fs : List (String × JsonVal))

/-- Content block (src/types/index.ts `Content`): a tagged union of text and
image blocks. Only text blocks are produced by the code under verification. -/
inductive Content where
  | text (t : String)
  | image (data : String) (mimeType : String)
deriving DecidableEq, Repr

/-- Resource content item of the Express `resources/read` result
(`McpResourceContent`): `uri`, optional `mimeType`, optional `text`. -/
structure ResContent where
  uri : String
  mimeType : Option String := none
  text : Option String := none
deriving DecidableEq, Repr

/-- The projection of a `tools/call` `arguments: Record<string, unknown>`
object onto the fields the two servers actually read (`text`, `message`,
`expression`, `operation`, `a`, `b`); every field may be absent. Numeric
fields are modelled as integers (see the header). -/
structure ToolArgs where
  text : Option String := none
  message : Option String := none
  expression : Option String := none
  operation : Option String := none
  a : Option Int := none
  b : Option Int := none
deriving DecidableEq, Repr

/-- The projection of a `prompts/get` `arguments` object onto the fields the
Express handler reads (`text`, `max_words`). -/
structure PromptArgs where
  text : Option String := none
  max_words : Option Int := none
deriving DecidableEq, Repr

/-- InitializeParams as the handlers read it: only `protocolVersion` is ever
inspected (`capabilities` and `clientInfo` are logged, never branched on).
`none` models an absent / undefined field. -/
structure InitParams where
  protocolVersion : Option String := none
deriving DecidableEq, Repr

/-- ReadResourceParams: `uri` (possibly absent at runtime). -/
structure ReadParams where
  uri : Option String := none
deriving DecidableEq, Repr

/-- CallToolParams: `name` and optional `arguments`. -/
structure CallParams where
  name : Option String := none
  arguments : Option ToolArgs := none
deriving DecidableEq, Repr

/-- GetPromptParams: `name` and optional `arguments`. -/
structure GetPromptParams where
  name : Option String := none
  arguments : Option PromptArgs := none
deriving DecidableEq, Repr

/-- The `params` field of an incoming message, as a tagged union of the
parameter shapes the dispatchers cast it to. `absent` is `params: undefined`.
A handler reading a field from a params value of the wrong kind observes
`undefined` (the `as*` casts below return the all-absent record), mirroring a
property read on a JavaScript object that lacks the field. -/
inductive Params where
  | absent
  | init (p : InitParams)
  | read (p : ReadParams)
  | call (p : CallParams)
  | getp (p : GetPromptParams)
  | level (l : String)
deriving DecidableEq, Repr

/-- Cast `request.params as InitializeParams` (a TypeScript cast is a no-op at
runtime; reading a missing property yields undefined). -/
def Params.asInit : Params → InitParams
  | .init p => p
  | _ => {}

/-- Cast `request.params as \x7b uri: string \x7d`. -/
def Params.asRead : Params → ReadParams
  | .read p => p
  | _ => {}

/-- Cast `request.params as \x7b name; arguments \x7d` for tools/call. -/
def Params.asCall : Params → CallParams
  | .call p => p
  | _ => {}

/-- Cast `request.params as \x7b name; arguments \x7d` for prompts/get. -/
def Params.asGetp : Params → GetPromptParams
  | .getp p => p
  | _ => {}

/-- A decoded JSON-RPC request or notification: `id` is `none` when the field
is absent (undefined), which is exactly the notification marker used by
`isNotification` (src/utils/jsonrpc.ts) and by the stdio transport. -/
structure JRRequest where
  id : Option RpcId := none
  method : String
  params : Params := .absent
deriving DecidableEq, Repr

/-! Section: capability and descriptor records -/

/-- The `resources` sub-capability: `subscribe?`, `listChanged?`. -/
structure ResCaps where
  subscribe : Option Bool := none
  listChanged : Option Bool := none
deriving DecidableEq, Repr

/-- A sub-capability with only `listChanged?` (tools, prompts). -/
structure FlagCaps where
  listChanged : Option Bool := none
deriving DecidableEq, Repr

/-- ServerCapabilities: `logging` records the presence of the empty `logging`
object; the rest mirror the optional sub-records. -/
structure Capabilities where
  logging : Bool := false
  prompts : Option FlagCaps := none
  resources : Option ResCaps := none
  tools : Option FlagCaps := none
deriving DecidableEq, Repr

/-- Implementation descriptor: `name`, `version`. -/
structure Implementation where
  name : String
  version : String
deriving DecidableEq, Repr

/-- InitializeResult: `protocolVersion`, `capabilities`, `serverInfo`. -/
structure InitResult where
  protocolVersion : String
  capabilities : Capabilities
  serverInfo : Implementation
deriving DecidableEq, Repr

/-- Resource descriptor (src/types/index.ts). -/
structure Resource where
  uri : String
  name : String
  description : Option String := none
  mimeType : Option String := none
deriving DecidableEq, Repr

/-- Tool descriptor: `name`, `description?`, declarative `inputSchema`. -/
structure Tool where
  name : String
  description : Option String := none
  inputSchema : JsonVal

/-- Prompt argument declaration. -/
structure PromptArgDecl where
  name : String
  description : Option String := none
  required : Option Bool := none
deriving DecidableEq, Repr

/-- Prompt descriptor. -/
structure Prompt where
  name : String
  description : Option String := none
  arguments : Option (List PromptArgDecl) := none
deriving DecidableEq, Repr

/-- ToolCallResult: `content` blocks plus optional `isError`. -/
structure ToolCallResult where
  content : List Content
  isError : Option Bool := none
deriving DecidableEq, Repr

/-- A prompt message of a `prompts/get` result. -/
structure PromptMessage where
  role : String
  content : Content
deriving DecidableEq, Repr

/-- GetPromptResult: optional `description` and the `messages`. -/
structure GetPromptRes where
  description : Option String := none
  messages : List PromptMessage
deriving DecidableEq, Repr

/-! Section: JavaScript-semantics helpers -/

/-- JavaScript `v || d` on an optional string: the empty string is falsy. -/
def jsOrStr (v : Option String) (d : String) : String :=
  match v with
  | some s => if s = "" then d else s
  | none => d

/-- JavaScript `v || d` on an optional number: 0 is falsy. -/
def jsOrNum (v : Option Int) (d : Int) : Int :=
  match v with
  | some n => if n = 0 then d else n
  | none => d

/-- Template-literal rendering of a possibly-undefined string. -/
def optStr : Option String → String
  | none => "undefined"
  | some s => s

/-- JavaScript `Number(x)` on a numeric-or-absent argument. -/
def toNumber : Option Int → JSNum
  | none => .nan
  | some n => .num n

/-- Template-literal rendering of a JavaScript number (integer-modelled). -/
def jsNumStr : JSNum → String
  | .nan => "NaN"
  | .num n => toString n

/-- A NaN-propagating binary operation on JavaScript numbers. -/
def jsBin (f : Int → Int → Int) : JSNum → JSNum → JSNum
  | .num x, .num y => .num (f x y)
  | _, _ => .nan

/-- The JavaScript test `x !== 0` on a number (true for NaN). -/
def jsNeqZero : JSNum → Bool
  | .nan => true
  | .num n => n ≠ 0

/-- JavaScript `Map.prototype.set` on an insertion-ordered association list:
replace in place when the key exists, append otherwise. -/
def mapSet {α : Type} (m : List (String × α)) (k : String) (v : α) :
    List (String × α) :=
  match m with
  | [] => [(k, v)]
  | (k2, v2) :: rest =>
      if k2 = k then (k, v) :: rest else (k2, v2) :: mapSet rest k v

/-- Rendering of `JSON.stringify` on a tool-arguments object. The exact JSON
text is irrelevant to every theorem below; presence-order rendering of the
read fields stands in for the engine serialisation. -/
def stringifyToolArgs (args : ToolArgs) : String :=
  let f : String → Option String → List String := fun k v =>
    match v with
    | some s => [String.append (String.append "\"" k) (String.append "\":\"" (String.append s "\""))]
    | none => []
  let g : String → Option Int → List String := fun k v =>
    match v with
    | some n => [String.append (String.append "\"" k) (String.append "\":" (toString n))]
    | none => []
  String.append "\x7b"
    (String.append (String.intercalate ","
      (f "text" args.text ++ f "message" args.message ++
       f "expression" args.expression ++ f "operation" args.operation ++
       g "a" args.a ++ g "b" args.b)) "\x7d")

/-- Rendering of `JSON.stringify(params.arguments || \x7b\x7d)` on a
prompt-arguments object; same caveat as `stringifyToolArgs`. -/
def stringifyPromptArgs (args : Option PromptArgs) : String :=
  match args with
  | none => "\x7b\x7d"
  | some a =>
      let f : String → Option String → List String := fun k v =>
        match v with
        | some s => [String.append (String.append "\"" k) (String.append "\":\"" (String.append s "\""))]
        | none => []
      let g : String → Option Int → List String := fun k v =>
        match v with
        | some n => [String.append (String.append "\"" k) (String.append "\":" (toString n))]
        | none => []
      String.append "\x7b"
        (String.append (String.intercalate ","
          (f "text" a.text ++ g "max_words" a.max_words)) "\x7d")

end Mcp

namespace Mcp

/-! Section: the stdio MCPServer (src/resources/index.ts, class MCPServer) -/

/-- The result value of a stdio dispatch, a tagged union of the handler
result shapes (`result: unknown` in the response). `nullRes` is the explicit
`result: null` of the notifications/initialized branch. -/
inductive MCPResult where
  | initRes (r : InitResult)
  | nullRes
  | promptList (ps : List Prompt)
  | promptGet (r : GetPromptRes)
  | resourceList (rs : List Resource)
  | resourceRead (contents : List Content)
  | toolList (ts : List Tool)
  | toolCall (r : ToolCallResult)

/-- A stdio JSONRPCResponse; `id` echoes the request id (absent when the
parsed request object lacked one). -/
structure JRResponse where
  id : Option RpcId := none
  result : Option MCPResult := none
  error : Option RpcError := none

/-- The mutable state of a stdio MCPServer instance: the `initialized` flag
(field renamed `initDone` here) and the three insertion-ordered registries.
The EventEmitter `emit` calls of the register methods are fire-and-forget
with no subscriber in the repository and are not modelled. -/
structure MCPState where
  initDone : Bool := false
  resources : List (String × Resource) := []
  tools : List (String × Tool) := []
  prompts : List (String × Prompt) := []

/-- The stdio server's capabilities (constructor of MCPServer). -/
def stdioCaps : Capabilities :=
  { logging := true
    prompts := some { listChanged := some true }
    resources := some { subscribe := some true, listChanged := some true }
    tools := some { listChanged := some true } }

/-- The stdio server's `serverInfo`. -/
def stdioInfo : Implementation := { name := "mcp-server", version := "1.0.0" }

/-- MCPServer.initialize (named `srvInit` here; `initialize` is reserved in
this development): rejects when already initialized (-32600), rejects an
unsupported `protocolVersion` (-32602), otherwise sets the flag and returns
the InitializeResult. The thrown values are the plain objects built by
`createError`. -/
def MCPServer.srvInit (s : MCPState) (p : InitParams) :
    Except RpcError (MCPState × InitResult) :=
  if s.initDone then
    .error { code := -32600, message := "Already initialized" }
  else if p.protocolVersion ≠ some "2024-11-05" then
    .error { code := -32602,
             message := "Unsupported protocol version: " ++ optStr p.protocolVersion }
  else
    .ok ({ s with initDone := true },
         { protocolVersion := "2024-11-05", capabilities := stdioCaps,
           serverInfo := stdioInfo })

/-- MCPServer.listPrompts: the registry values in insertion order. -/
def MCPServer.listPrompts (s : MCPState) : List Prompt :=
  s.prompts.map Prod.snd

/-- MCPServer.getPrompt: resolve by name (fault -32602 when absent, with the
template rendering `undefined` for an absent name), then render the fixed
text block. -/
def MCPServer.getPrompt (s : MCPState) (p : GetPromptParams) :
    Except RpcError GetPromptRes :=
  match p.name with
  | none => .error { code := -32602, message := "Prompt not found: undefined" }
  | some n =>
      match s.prompts.lookup n with
      | none => .error { code := -32602, message := "Prompt not found: " ++ n }
      | some pr =>
          .ok { description := pr.description
                messages := [{ role := "user"
                               content := .text ("This is the " ++ n ++
                                 " prompt with arguments: " ++
                                 stringifyPromptArgs p.arguments) }] }

/-- MCPServer.listResources. -/
def MCPServer.listResources (s : MCPState) : List Resource :=
  s.resources.map Prod.snd

/-- MCPServer.readResource: resolve by uri (fault -32602 when absent) and
render the metadata text block. -/
def MCPServer.readResource (s : MCPState) (p : ReadParams) :
    Except RpcError (List Content) :=
  match p.uri with
  | none => .error { code := -32602, message := "Resource not found: undefined" }
  | some u =>
      match s.resources.lookup u with
      | none => .error { code := -32602, message := "Resource not found: " ++ u }
      | some r =>
          .ok [.text ("Content of resource: " ++ r.name ++ "\nURI: " ++ r.uri ++
                "\nDescription: " ++ jsOrStr r.description "No description")]

/-- MCPServer.listTools. -/
def MCPServer.listTools (s : MCPState) : List Tool :=
  s.tools.map Prod.snd

/-- MCPServer.executeTool: the built-in tool implementations. The `now`
parameter stands for `new Date().toISOString()`. -/
def MCPServer.executeTool (now : String) (toolName : String) (args : ToolArgs) :
    String :=
  match toolName with
  | "echo" => "Echo: " ++ jsOrStr args.message "No message provided"
  | "calculate" =>
      let numA := toNumber args.a
      let numB := toNumber args.b
      match args.operation with
      | some "add" =>
          jsNumStr numA ++ " + " ++ jsNumStr numB ++ " = " ++
            jsNumStr (jsBin (· + ·) numA numB)
      | some "subtract" =>
          jsNumStr numA ++ " - " ++ jsNumStr numB ++ " = " ++
            jsNumStr (jsBin (· - ·) numA numB)
      | some "multiply" =>
          jsNumStr numA ++ " * " ++ jsNumStr numB ++ " = " ++
            jsNumStr (jsBin (· * ·) numA numB)
      | some "divide" =>
          if jsNeqZero numB then
            jsNumStr numA ++ " / " ++ jsNumStr numB ++ " = " ++
              jsNumStr (jsBin (· / ·) numA numB)
          else "Error: Division by zero"
      | _ => "Error: Unknown operation"
  | "timestamp" => "Current timestamp: " ++ now
  | _ => "Tool " ++ toolName ++ " executed with arguments: " ++
           stringifyToolArgs args

/-- MCPServer.callTool: resolve the descriptor by name from the registry
(fault -32602 when absent), then delegate to `executeTool` and wrap the
returned string in one text content block (no `isError` field is set). -/
def MCPServer.callTool (now : String) (s : MCPState) (p : CallParams) :
    Except RpcError ToolCallResult :=
  match p.name with
  | none => .error { code := -32602, message := "Tool not found: undefined" }
  | some n =>
      match s.tools.lookup n with
      | none => .error { code := -32602, message := "Tool not found: " ++ n }
      | some _ =>
          .ok { content := [.text (MCPServer.executeTool now n (p.arguments.getD {}))] }

/-- The method switch of MCPServer.handleRequest: runs the matching handler,
threading the state; an unknown method throws -32601. The `Except.error`
values are exactly the plain objects thrown with `createError`. -/
def MCPServer.dispatch (now : String) (s : MCPState) (req : JRRequest) :
    Except RpcError (MCPState × MCPResult) :=
  match req.method with
  | "initialize" =>
      (MCPServer.srvInit s req.params.asInit).map (fun x => (x.1, .initRes x.2))
  | "notifications/initialized" => .ok (s, .nullRes)
  | "prompts/list" => .ok (s, .promptList (MCPServer.listPrompts s))
  | "prompts/get" =>
      (MCPServer.getPrompt s req.params.asGetp).map (fun r => (s, .promptGet r))
  | "resources/list" => .ok (s, .resourceList (MCPServer.listResources s))
  | "resources/read" =>
      (MCPServer.readResource s req.params.asRead).map (fun c => (s, .resourceRead c))
  | "tools/list" => .ok (s, .toolList (MCPServer.listTools s))
  | "tools/call" =>
      (MCPServer.callTool now s req.params.asCall).map (fun r => (s, .toolCall r))
  | m => .error { code := -32601, message := "Method not found: " ++ m }

/-- MCPServer.handleRequest: wrap the dispatch outcome into a JSONRPCResponse.
On a fault the source evaluates
`error instanceof Error && (quote) code (quote) in error ? error : createError(-32603, ...)`.
Every value thrown inside this class is a plain object literal built by
`createError`, and a plain object is not an `instanceof Error`; the forward
branch therefore never fires and the catch always answers with
`createError(-32603, (quote) Internal error (quote))` (the second ternary also
takes its else branch for a non-Error throw). The thrown error's own code and
message are discarded. -/
def MCPServer.handleRequest (now : String) (s : MCPState) (req : JRRequest) :
    MCPState × JRResponse :=
  match MCPServer.dispatch now s req with
  | .ok (s2, r) => (s2, { id := req.id, result := some r })
  | .error _ => (s, { id := req.id, error := some { code := -32603, message := "Internal error" } })

/-- MCPServer.registerResource: insert or replace by uri. -/
def MCPServer.registerResource (s : MCPState) (r : Resource) : MCPState :=
  { s with resources := mapSet s.resources r.uri r }

/-- MCPServer.registerTool: insert or replace by name. -/
def MCPServer.registerTool (s : MCPState) (t : Tool) : MCPState :=
  { s with tools := mapSet s.tools t.name t }

/-- MCPServer.registerPrompt: insert or replace by name. -/
def MCPServer.registerPrompt (s : MCPState) (p : Prompt) : MCPState :=
  { s with prompts := mapSet s.prompts p.name p }

/-- One line of the stdio transport (src/tools/index.ts,
StdioTransport.setupTransport) after a successful `JSON.parse`: the server
handles the request unconditionally, and the response is written only when
`request.id !== undefined`. -/
def stdioHandleLine (now : String) (s : MCPState) (req : JRRequest) :
    MCPState × Option JRResponse :=
  let x := MCPServer.handleRequest now s req
  (x.1, if req.id.isSome then some x.2 else none)

end Mcp

namespace Mcp

/-! Section: the Express McpServer (src/prompts/index.ts, class McpServer) -/

/-- The Express server's capabilities (constructor). -/
def expressCaps : Capabilities :=
  { logging := true
    prompts := some { listChanged := some false }
    resources := some { subscribe := some false, listChanged := some false }
    tools := some { listChanged := some false } }

/-- The Express server's `serverInfo`. -/
def expressInfo : Implementation :=
  { name := "mcp-server-express", version := "1.0.0" }

/-- The tags of the nine handler methods the constructor registers; the
handler table maps method-name strings to these. -/
inductive HName where
  | initM
  | initedM
  | resListM
  | resReadM
  | toolListM
  | toolCallM
  | promptListM
  | promptGetM
  | setLevelM
deriving DecidableEq, Repr

/-- The handler table built by setupDefaultHandlers, in registration order. -/
def defaultHandlers : List (String × HName) :=
  [("initialize", .initM), ("initialized", .initedM),
   ("resources/list", .resListM), ("resources/read", .resReadM),
   ("tools/list", .toolListM), ("tools/call", .toolCallM),
   ("prompts/list", .promptListM), ("prompts/get", .promptGetM),
   ("logging/setLevel", .setLevelM)]

/-- The mutable state of an Express McpServer: its method-handler map and the
`initialized` flag (renamed `initDone`). -/
structure ExpressState where
  handlers : List (String × HName) := defaultHandlers
  initDone : Bool := false
deriving DecidableEq, Repr

/-- McpServer.registerMethod: insert or replace (last registration wins). -/
def McpServer.registerMethod (s : ExpressState) (m : String) (h : HName) :
    ExpressState :=
  { s with handlers := mapSet s.handlers m h }

/-- The result value of an Express handler, a tagged union of the result
interfaces; `voidRes` is a handler that returns undefined (`initialized`,
`logging/setLevel`). -/
inductive ExpressResult where
  | initRes (r : InitResult)
  | voidRes
  | resourceList (rs : List Resource)
  | resourceRead (contents : List ResContent)
  | toolList (ts : List Tool)
  | toolCall (r : ToolCallResult)
  | promptList (ps : List Prompt)
  | promptGet (r : GetPromptRes)

/-- McpServer.handleInitialize (named `handleInit` here): unconditionally sets
the flag and returns the fixed InitializeResult; it performs no check of
`params.protocolVersion` and never faults. -/
def McpServer.handleInit (s : ExpressState) (_p : InitParams) :
    ExpressState × InitResult :=
  ({ s with initDone := true },
   { protocolVersion := "2024-11-05", capabilities := expressCaps,
     serverInfo := expressInfo })

/-- The fixed resource list of McpServer.handleListResources. -/
def expressResources : List Resource :=
  [{ uri := "file:///example.txt", name := "Example Text File",
     description := some "An example text resource",
     mimeType := some "text/plain" },
   { uri := "http://example.com/api/data", name := "Example API Data",
     description := some "Example data from an API endpoint",
     mimeType := some "application/json" }]

/-- McpServer.handleReadResource: content for the two known uris, a thrown
plain `Error` otherwise. `now` renders the timestamp of the API-data body. -/
def McpServer.handleReadResource (now : String) (p : ReadParams) :
    Except String (List ResContent) :=
  if p.uri = some "file:///example.txt" then
    .ok [{ uri := "file:///example.txt", mimeType := some "text/plain",
           text := some "This is example content from a text file." }]
  else if p.uri = some "http://example.com/api/data" then
    .ok [{ uri := "http://example.com/api/data",
           mimeType := some "application/json",
           text := some ("\x7b\"message\":\"Example API data\",\"timestamp\":\"" ++
             now ++ "\"\x7d") }]
  else .error ("Resource not found: " ++ optStr p.uri)

/-- The fixed tool descriptors of McpServer.handleListTools. -/
def expressTools : List Tool :=
  [{ name := "echo", description := some "Echo back the provided text",
     inputSchema := .obj [("type", .str "object"),
       ("properties", .obj [("text", .obj [("type", .str "string"),
         ("description", .str "The text to echo back")])]),
       ("required", .arr [.str "text"])] },
   { name := "calculate",
     description := some "Perform basic arithmetic calculations",
     inputSchema := .obj [("type", .str "object"),
       ("properties", .obj [("expression", .obj [("type", .str "string"),
         ("description", .str "Mathematical expression to evaluate (e.g., \"2 + 3 * 4\")")])]),
       ("required", .arr [.str "expression"])] }]

/-- A character the sanitiser of `evaluateExpression` keeps: the class
`[0-9+\-*/().\s]`. JavaScript `\s` also matches some exotic unicode spaces;
the common whitespace characters suffice here. -/
def isExprChar (c : Char) : Bool :=
  c.isDigit || c = '+' || c = '-' || c = '*' || c = '/' || c = '(' ||
    c = ')' || c = '.' || c = ' ' || c = '\t' || c = '\n' || c = '\r' ||
    c = '\x0b' || c = '\x0c'

/-- The sanitisation `expression.replace(/[^0-9+\-*\/().\s]/g, (empty))`. -/
def sanitize (e : String) : String :=
  String.mk (e.data.filter isExprChar)

/-- McpServer.evaluateExpression (named `evalExpr`): reject when the sanitised
text is empty or differs from the input; otherwise run the JavaScript
arithmetic evaluation (the `jsEval` oracle). Every failure inside the inner
try — an evaluation throw or a non-number / non-finite result — is rethrown
as the single message `Invalid mathematical expression`. -/
def McpServer.evalExpr (jsEval : String → Option Int) (expression : String) :
    Except String Int :=
  let sanitized := sanitize expression
  if sanitized = "" ∨ sanitized ≠ expression then
    .error "Invalid characters in expression"
  else
    match jsEval sanitized with
    | some n => .ok n
    | none => .error "Invalid mathematical expression"

/-- McpServer.handleCallTool: echo returns the text (with the falsy-default),
calculate evaluates and converts an evaluation fault into a normal result
carrying `isError: true`, any other name throws a plain `Error`. -/
def McpServer.handleCallTool (jsEval : String → Option Int) (p : CallParams) :
    Except String ToolCallResult :=
  match p.name with
  | some "echo" =>
      .ok { content := [.text (jsOrStr (p.arguments.bind ToolArgs.text)
              "No text provided")] }
  | some "calculate" =>
      match McpServer.evalExpr jsEval
          (jsOrStr (p.arguments.bind ToolArgs.expression) "") with
      | .ok n => .ok { content := [.text ("Result: " ++ toString n)] }
      | .error msg =>
          .ok { content := [.text ("Error: " ++ msg)], isError := some true }
  | n => .error ("Unknown tool: " ++ optStr n)

/-- The fixed prompt list of McpServer.handleListPrompts. -/
def expressPrompts : List Prompt :=
  [{ name := "summarize",
     description := some "Generate a summary of the provided text",
     arguments := some
       [{ name := "text", description := some "The text to summarize",
          required := some true },
        { name := "max_words",
          description := some "Maximum number of words in the summary",
          required := some false }] }]

/-- McpServer.handleGetPrompt: the summarize template with falsy-defaulted
arguments, a thrown plain `Error` for any other name. -/
def McpServer.handleGetPrompt (p : GetPromptParams) :
    Except String GetPromptRes :=
  match p.name with
  | some "summarize" =>
      .ok { description := some "Prompt for text summarization",
            messages := [{ role := "user",
                           content := .text ("Please summarize the following text in no more than " ++
                             toString (jsOrNum (p.arguments.bind PromptArgs.max_words) 100) ++
                             " words:\n\n" ++
                             jsOrStr (p.arguments.bind PromptArgs.text) "") }] }
  | n => .error ("Unknown prompt: " ++ optStr n)

/-- Run one Express handler on the params: the `Except.error` string is the
`message` of a thrown plain `Error`. Only handleInitialize mutates the state,
and it cannot fault, so the pre-state is returned on every fault. The logger
mutation of `logging/setLevel` is outside the model. -/
def McpServer.runHandler (jsEval : String → Option Int) (now : String)
    (s : ExpressState) (h : HName) (p : Params) :
    Except String (ExpressState × ExpressResult) :=
  match h with
  | .initM =>
      let x := McpServer.handleInit s p.asInit
      .ok (x.1, .initRes x.2)
  | .initedM => .ok (s, .voidRes)
  | .resListM => .ok (s, .resourceList expressResources)
  | .resReadM =>
      (McpServer.handleReadResource now p.asRead).map (fun c => (s, .resourceRead c))
  | .toolListM => .ok (s, .toolList expressTools)
  | .toolCallM =>
      (McpServer.handleCallTool jsEval p.asCall).map (fun r => (s, .toolCall r))
  | .promptListM => .ok (s, .promptList expressPrompts)
  | .promptGetM =>
      (McpServer.handleGetPrompt p.asGetp).map (fun r => (s, .promptGet r))
  | .setLevelM => .ok (s, .voidRes)

/-- An Express JsonRpcResponse built by `createJsonRpcResponse`: the id is
always present (string, number or null). -/
structure ExResponse where
  id : RpcId
  result : Option ExpressResult := none
  error : Option RpcError := none

/-- createMethodNotFoundError: code -32601, data `\x7b method \x7d`. -/
def methodNotFoundErr (m : String) : RpcError :=
  { code := -32601, message := "Method not found", data := some (.methodField m) }

/-- createInternalError with the fault message as data: code -32603. -/
def internalErr (msg : String) : RpcError :=
  { code := -32603, message := "Internal error", data := some (.str msg) }

/-- createInvalidRequestError: code -32600. -/
def invalidRequestErr (msg : String) : RpcError :=
  { code := -32600, message := "Invalid Request", data := some (.str msg) }

/-- McpServer.handleRequest: look the method up in the handler table
(MethodNotFound when absent), run the handler, wrap success as a result
response and a thrown fault as an InternalError response — and in each of the
three paths return `null` instead when the request is a notification
(`id === undefined`). The handler runs, and may mutate the state, before the
notification check. -/
def McpServer.handleRequest (jsEval : String → Option Int) (now : String)
    (s : ExpressState) (req : JRRequest) : ExpressState × Option ExResponse :=
  match s.handlers.lookup req.method with
  | none =>
      match req.id with
      | some i => (s, some { id := i, error := some (methodNotFoundErr req.method) })
      | none => (s, none)
  | some h =>
      match McpServer.runHandler jsEval now s h req.params with
      | .ok (s2, r) =>
          match req.id with
          | some i => (s2, some { id := i, result := some r })
          | none => (s2, none)
      | .error msg =>
          match req.id with
          | some i => (s, some { id := i, error := some (internalErr msg) })
          | none => (s, none)

end Mcp

namespace Mcp

/-! Section: the HTTP adapter (src/server.ts, class ExpressMcpServer) and the
JSON-RPC validation of src/utils/jsonrpc.ts -/

/-- The runtime shape of a message's `id` field before validation. `other`
stands for a value of a disallowed type (boolean, object, array). -/
inductive IdField where
  | undef
  | null
  | str (s : String)
  | num (n : Int)
  | other
deriving DecidableEq, Repr

/-- A raw member of the POST /mcp body after JSON parsing: a possibly invalid
message value. `isObject := false` models a non-object member (a string,
number, boolean or null); `jsonrpc`/`method` are `none` when the field is
absent or not a string (the validator only compares them to a string). -/
structure MsgVal where
  isObject : Bool := true
  jsonrpc : Option String := none
  method : Option String := none
  id : IdField := .undef
  params : Params := .absent
deriving DecidableEq, Repr

/-- isValidJsonRpcRequest (src/utils/jsonrpc.ts): a truthy object whose
`jsonrpc` is exactly "2.0", whose `method` is a string, and whose `id` is
undefined, null, a string or a number. -/
def isValidJsonRpcRequest (v : MsgVal) : Bool :=
  v.isObject && v.jsonrpc == some "2.0" && v.method.isSome && v.id ≠ .other

/-- Decode a validated message value into a request (the identity in the
source; here the typed projection). -/
def MsgVal.toReq (v : MsgVal) : JRRequest :=
  { id := match v.id with
          | .undef => none
          | .null => some .null
          | .str s => some (.str s)
          | .num n => some (.num n)
          | .other => none,
    method := v.method.getD "",
    params := v.params }

/-- The response id `requestData?.id || null` used for an invalid member: a
falsy id (undefined, null, 0, the empty string) becomes null. An id of
object type (the `other` case) is truthy in the source; it is approximated by
null here, and no theorem below touches an invalid member with one. -/
def MsgVal.fallbackId (v : MsgVal) : RpcId :=
  match v.id with
  | .str s => if s = "" then .null else .str s
  | .num n => if n = 0 then .null else .num n
  | _ => .null

/-- One iteration of the request loop of handleMcpRequest: validate, then
either push the validation error response or dispatch and push the response
when one is produced. (The surrounding per-member catch is unreachable:
`validateJsonRpcRequest` returns rather than throws, and
`McpServer.handleRequest` catches every handler fault.) -/
def processOne (jsEval : String → Option Int) (now : String)
    (s : ExpressState) (v : MsgVal) : ExpressState × Option ExResponse :=
  if isValidJsonRpcRequest v then
    McpServer.handleRequest jsEval now s v.toReq
  else
    (s, some { id := v.fallbackId,
               error := some (invalidRequestErr "Invalid JSON-RPC 2.0 request format") })

/-- The request loop: sequential, state-threading, responses pushed in input
order and only when produced. -/
def processList (jsEval : String → Option Int) (now : String) :
    ExpressState → List MsgVal → ExpressState × List ExResponse
  | s, [] => (s, [])
  | s, v :: vs =>
      let x := processOne jsEval now s v
      let y := processList jsEval now x.1 vs
      (y.1, match x.2 with
            | some r => r :: y.2
            | none => y.2)

/-- The parsed POST /mcp body: `Array.isArray` distinguishes a batch from a
single message. -/
inductive Body where
  | single (v : MsgVal)
  | batch (vs : List MsgVal)

/-- The body of an HTTP response of the /mcp route: a JSON-RPC array, a
single JSON-RPC object, the plain error object of the global error handler,
or the empty 204 body. -/
inductive HttpBody where
  | jsonArr (rs : List ExResponse)
  | jsonOne (r : ExResponse)
  | plainErr (error : String) (message : String)
  | empty

/-- An HTTP response: status code and body. -/
structure HttpOut where
  status : Nat
  body : HttpBody

/-- ExpressMcpServer.handleMcpRequest on a parsed body: a batch answers with
the response array (even when empty); a single message answers with the
single response, or 204 with no body when none was produced (a notification). -/
def handleMcpRequest (jsEval : String → Option Int) (now : String)
    (s : ExpressState) (b : Body) : ExpressState × HttpOut :=
  match b with
  | .batch vs =>
      let x := processList jsEval now s vs
      (x.1, { status := 200, body := .jsonArr x.2 })
  | .single v =>
      let x := processList jsEval now s [v]
      match x.2 with
      | r :: _ => (x.1, { status := 200, body := .jsonOne r })
      | [] => (x.1, { status := 204, body := .empty })

/-- The POST /mcp pipeline including body parsing. `express.json()` runs
before the route (setupMiddleware precedes setupRoutes); when the body is not
parseable JSON the middleware raises, the route (and its ParseError catch)
never runs, and the error lands in the global error-handling middleware of
setupErrorHandling, which answers 500 with the plain object
`\x7b error: "Internal Server Error", message \x7d` — the message being the
parse error's own text only in development posture (`dev`). -/
def postMcp (dev : Bool) (jsEval : String → Option Int) (now : String)
    (s : ExpressState) (parsed : Except String Body) : ExpressState × HttpOut :=
  match parsed with
  | .ok b => handleMcpRequest jsEval now s b
  | .error msg =>
      (s, { status := 500,
            body := .plainErr "Internal Server Error"
              (if dev then msg else "An unexpected error occurred") })

/-! Section: the stdio server state built by StdioTransport.setupServer
(src/tools/index.ts) -/

/-- The state of the stdio server after the transport's setupServer has
registered its two resources, three tools and two prompts. -/
def stdioSetupState : MCPState :=
  let s0 : MCPState := {}
  let s1 := MCPServer.registerResource s0
    { uri := "file://example.txt", name := "Example Text File",
      description := some "A sample text resource", mimeType := some "text/plain" }
  let s2 := MCPServer.registerResource s1
    { uri := "config://server-info", name := "Server Information",
      description := some "Information about this MCP server",
      mimeType := some "application/json" }
  let s3 := MCPServer.registerTool s2
    { name := "echo", description := some "Echo back the provided message",
      inputSchema := .obj [("type", .str "object"),
        ("properties", .obj [("message", .obj [("type", .str "string"),
          ("description", .str "The message to echo back")])]),
        ("required", .arr [.str "message"])] }
  let s4 := MCPServer.registerTool s3
    { name := "calculate",
      description := some "Perform basic mathematical operations",
      inputSchema := .obj [("type", .str "object"),
        ("properties", .obj [
          ("operation", .obj [("type", .str "string"),
            ("enum", .arr [.str "add", .str "subtract", .str "multiply", .str "divide"]),
            ("description", .str "The mathematical operation to perform")]),
          ("a", .obj [("type", .str "number"), ("description", .str "First operand")]),
          ("b", .obj [("type", .str "number"), ("description", .str "Second operand")])]),
        ("required", .arr [.str "operation", .str "a", .str "b"])] }
  let s5 := MCPServer.registerTool s4
    { name := "timestamp", description := some "Get the current timestamp",
      inputSchema := .obj [("type", .str "object"),
        ("properties", .obj []), ("additionalProperties", .bool false)] }
  let s6 := MCPServer.registerPrompt s5
    { name := "summarize",
      description := some "Generate a summary of the provided content",
      arguments := some
        [{ name := "content", description := some "The content to summarize",
           required := some true },
         { name := "length",
           description := some "Desired summary length (short, medium, long)",
           required := some false }] }
  MCPServer.registerPrompt s6
    { name := "analyze",
      description := some "Perform analysis on the provided data",
      arguments := some
        [{ name := "data", description := some "The data to analyze",
           required := some true },
         { name := "type", description := some "Type of analysis to perform",
           required := some false }] }

end Mcp

namespace Mcp

/-! Section: shared lemmas -/

/-- The Express dispatcher produces a response exactly when the request
carries an identifier, on every path (missing handler, success, fault). -/
theorem express_response_isSome (jsEval : String → Option Int) (now : String)
    (s : ExpressState) (req : JRRequest) :
    (McpServer.handleRequest jsEval now s req).2.isSome = req.id.isSome := by
  unfold McpServer.handleRequest
  cases hl : s.handlers.lookup req.method with
  | none => cases req.id <;> rfl
  | some h =>
      dsimp only
      cases hr : McpServer.runHandler jsEval now s h req.params with
      | ok x =>
          obtain ⟨s2, r⟩ := x
          cases req.id <;> rfl
      | error m => cases req.id <;> rfl

end Mcp

namespace Mcp

/-- A valid initialize request with the supported protocol version, id 1. -/
def initReq2024 : JRRequest :=
  { id := some (.num 1), method := "initialize",
    params := .init { protocolVersion := some "2024-11-05" } }

/-- The InitializeResult the Express handler returns. -/
def expressInitRes : InitResult :=
  { protocolVersion := "2024-11-05", capabilities := expressCaps,
    serverInfo := expressInfo }

/-- The InitializeResult the stdio handler returns. -/
def stdioInitRes : InitResult :=
  { protocolVersion := "2024-11-05", capabilities := stdioCaps,
    serverInfo := stdioInfo }

/-- Claim C1: for a validated Request whose method is unknown, the Express
dispatcher answers MethodNotFound (-32601) as the claim states, but the stdio
dispatcher does not: its thrown `createError(-32601, ...)` object is not an
`instanceof Error`, so the catch discards it and answers
InternalError (-32603, "Internal error"). Evaluation at the failing input. -/
theorem claim_C1_unknown_method_codes :
    (McpServer.handleRequest (fun _ => none) "t" {}
        { id := some (.num 1), method := "unknown/method" }).2
      = some { id := .num 1, error := some (methodNotFoundErr "unknown/method") }
    ∧ (MCPServer.handleRequest "t" {} { id := some (.num 1), method := "unknown/method" }).2
      = { id := some (.num 1),
          error := some { code := -32603, message := "Internal error" } } :=
  ⟨rfl, rfl⟩

/-- Claim C2: a Notification (absent id) never produces output: the Express
dispatcher returns null on all paths (missing handler, success, fault), and
the stdio transport writes nothing when the id is undefined. -/
theorem claim_C2_notification_silent (jsEval : String → Option Int)
    (now now2 : String) (e : ExpressState) (s : MCPState) (req : JRRequest)
    (h : req.id = none) :
    (McpServer.handleRequest jsEval now e req).2 = none
    ∧ (stdioHandleLine now2 s req).2 = none := by
  constructor
  · have h2 := express_response_isSome jsEval now e req
    rw [h] at h2
    simp only [Option.isSome_none] at h2
    exact Option.not_isSome_iff_eq_none.mp (by simp [h2])
  · simp [stdioHandleLine, h]

/-- Witness for C2 at a concrete notification. -/
theorem claim_C2_witness :
    (McpServer.handleRequest (fun _ => none) "t" {}
        { id := none, method := "resources/read" }).2 = none
    ∧ (stdioHandleLine "t" {} { id := none, method := "resources/read" }).2 = none :=
  claim_C2_notification_silent (fun _ => none) "t" "t" {} {}
    { id := none, method := "resources/read" } rfl

/-- Claim C3 counterexample: on the stdio server a first initialize succeeds
and a second one on the resulting state yields an error response (the
"Already initialized" guard, delivered as -32603), not a result. -/
theorem claim_C3_counterexample :
    ((MCPServer.handleRequest "t" {} initReq2024).2).result.isSome = true
    ∧ ((MCPServer.handleRequest "t" (MCPServer.handleRequest "t" {} initReq2024).1
          initReq2024).2).result = none
    ∧ ((MCPServer.handleRequest "t" (MCPServer.handleRequest "t" {} initReq2024).1
          initReq2024).2).error
        = some { code := -32603, message := "Internal error" } :=
  ⟨rfl, rfl, rfl⟩

/-- Claim C3 amended: the Express server treats repeated initialize as
re-succeeding (any state, any params: result returned, flag overwritten to
true), while the stdio MCPServer rejects initialize on an already-initialized
session with an error response (-32603 "Internal error", carrying the
"Already initialized" guard fault). -/
theorem claim_C3_amended_behavior (jsEval : String → Option Int)
    (now now2 : String) (b : Bool) (p p2 : Params) (i i2 : RpcId) (s : MCPState)
    (hs : s.initDone = true) :
    (McpServer.handleRequest jsEval now { initDone := b }
        { id := some i, method := "initialize", params := p }).2
      = some { id := i,
               result := some (.initRes expressInitRes) }
    ∧ (McpServer.handleRequest jsEval now { initDone := b }
        { id := some i, method := "initialize", params := p }).1.initDone = true
    ∧ (MCPServer.handleRequest now2 s
        { id := some i2, method := "initialize", params := p2 }).2
      = { id := some i2,
          error := some { code := -32603, message := "Internal error" } } := by
  refine ⟨rfl, rfl, ?_⟩
  simp [MCPServer.handleRequest, MCPServer.dispatch, MCPServer.srvInit, hs,
    Except.map]

/-- Witness for C3's amended statement at concrete inputs. -/
theorem claim_C3_amended_witness :
    (McpServer.handleRequest (fun _ => none) "t" { initDone := false }
        { id := some (.num 1), method := "initialize", params := .absent }).2
      = some { id := .num 1,
               result := some (.initRes expressInitRes) }
    ∧ (McpServer.handleRequest (fun _ => none) "t" { initDone := false }
        { id := some (.num 1), method := "initialize", params := .absent }).1.initDone = true
    ∧ (MCPServer.handleRequest "t" { initDone := true }
        { id := some (.num 2), method := "initialize", params := .absent }).2
      = { id := some (.num 2),
          error := some { code := -32603, message := "Internal error" } } :=
  claim_C3_amended_behavior (fun _ => none) "t" "t" false .absent .absent
    (.num 1) (.num 2) { initDone := true } rfl

/-- Claim C4 counterexample: the Express initialize handler performs no
check of params.protocolVersion: with the unsupported version "0.9" it
returns a success result, not an InvalidParams (-32602) error. -/
theorem claim_C4_counterexample :
    (McpServer.handleRequest (fun _ => none) "t" {}
        { id := some (.num 1), method := "initialize",
          params := .init { protocolVersion := some "0.9" } }).2
      = some { id := .num 1,
               result := some (.initRes expressInitRes) } :=
  rfl

/-- Claim C4 amended: on a fresh session the stdio initialize handler rejects
an unsupported protocolVersion with an InvalidParams (-32602) fault, which
the dispatcher delivers as a -32603 "Internal error" response; a supported
version returns the InitializeResult. The Express handler accepts any
protocolVersion and always returns the result. -/
theorem claim_C4_amended_behavior (jsEval : String → Option Int)
    (now now2 : String) (s : MCPState) (hs : s.initDone = false)
    (v : String) (hv : v ≠ "2024-11-05") (i i2 : RpcId) (b : Bool) (p : Params) :
    MCPServer.srvInit s { protocolVersion := some v }
      = .error { code := -32602, message := "Unsupported protocol version: " ++ v }
    ∧ (MCPServer.handleRequest now s
        { id := some i, method := "initialize",
          params := .init { protocolVersion := some v } }).2
      = { id := some i,
          error := some { code := -32603, message := "Internal error" } }
    ∧ (MCPServer.handleRequest now s
        { id := some i, method := "initialize",
          params := .init { protocolVersion := some "2024-11-05" } }).2
      = { id := some i,
          result := some (.initRes stdioInitRes) }
    ∧ (McpServer.handleRequest jsEval now2 { initDone := b }
        { id := some i2, method := "initialize", params := p }).2
      = some { id := i2,
               result := some (.initRes expressInitRes) } := by
  refine ⟨?_, ?_, ?_, rfl⟩
  · simp [MCPServer.srvInit, hs, optStr, hv]
  · simp [MCPServer.handleRequest, MCPServer.dispatch, MCPServer.srvInit,
      Params.asInit, hs, hv, Except.map]
  · simp [MCPServer.handleRequest, MCPServer.dispatch, MCPServer.srvInit,
      Params.asInit, hs, Except.map, stdioInitRes]

/-- Witness for C4's amended statement at concrete inputs. -/
theorem claim_C4_amended_witness :
    MCPServer.srvInit {} { protocolVersion := some "1.0" }
      = .error { code := -32602, message := "Unsupported protocol version: " ++ "1.0" }
    ∧ (MCPServer.handleRequest "t" {}
        { id := some (.num 1), method := "initialize",
          params := .init { protocolVersion := some "1.0" } }).2
      = { id := some (.num 1),
          error := some { code := -32603, message := "Internal error" } }
    ∧ (MCPServer.handleRequest "t" {}
        { id := some (.num 1), method := "initialize",
          params := .init { protocolVersion := some "2024-11-05" } }).2
      = { id := some (.num 1),
          result := some (.initRes stdioInitRes) }
    ∧ (McpServer.handleRequest (fun _ => none) "t" { initDone := false }
        { id := some (.num 2), method := "initialize", params := .absent }).2
      = some { id := .num 2,
               result := some (.initRes expressInitRes) } :=
  claim_C4_amended_behavior (fun _ => none) "t" "t" {} rfl "1.0" (by decide)
    (.num 1) (.num 2) false .absent

/-- Claim C5 counterexample: on the Express server a resources/read of an
unregistered uri is answered with InternalError -32603 (the thrown plain
`Error` is wrapped by the dispatcher), not with InvalidParams -32602. -/
theorem claim_C5_counterexample :
    (McpServer.handleRequest (fun _ => none) "t" {}
        { id := some (.num 7), method := "resources/read",
          params := .read { uri := some "res://missing" } }).2
      = some { id := .num 7,
               error := some (internalErr "Resource not found: res://missing") }
    ∧ (internalErr "Resource not found: res://missing").code = -32603 :=
  ⟨rfl, rfl⟩

/-- Claim C5 amended: a resources/read of an unknown uri is answered with
error code -32603 in both servers: the stdio readResource faults with
-32602 "Resource not found" but the dispatcher delivers -32603
"Internal error" (the instanceof slip), and the Express dispatcher wraps the
thrown plain Error as InternalError -32603 with the message as data. -/
theorem claim_C5_amended_behavior (jsEval : String → Option Int) (now now2 : String)
    (s : MCPState) (u : String) (hl : s.resources.lookup u = none)
    (h1 : u ≠ "file:///example.txt") (h2 : u ≠ "http://example.com/api/data")
    (i i2 : RpcId) (b : Bool) :
    MCPServer.readResource s { uri := some u }
      = .error { code := -32602, message := "Resource not found: " ++ u }
    ∧ (MCPServer.handleRequest now s
        { id := some i, method := "resources/read",
          params := .read { uri := some u } }).2
      = { id := some i,
          error := some { code := -32603, message := "Internal error" } }
    ∧ (McpServer.handleRequest jsEval now2 { initDone := b }
        { id := some i2, method := "resources/read",
          params := .read { uri := some u } }).2
      = some { id := i2, error := some (internalErr ("Resource not found: " ++ u)) } := by
  refine ⟨?_, ?_, ?_⟩
  · simp [MCPServer.readResource, hl]
  · simp [MCPServer.handleRequest, MCPServer.dispatch, MCPServer.readResource,
      Params.asRead, hl, Except.map]
  · simp [McpServer.handleRequest, McpServer.runHandler,
      McpServer.handleReadResource, Params.asRead, defaultHandlers,
      List.lookup, h1, h2, Except.map, optStr]

/-- Witness for C5's amended statement at concrete inputs. -/
theorem claim_C5_amended_witness :
    MCPServer.readResource {} { uri := some "res://missing" }
      = .error { code := -32602, message := "Resource not found: " ++ "res://missing" }
    ∧ (MCPServer.handleRequest "t" {}
        { id := some (.num 1), method := "resources/read",
          params := .read { uri := some "res://missing" } }).2
      = { id := some (.num 1),
          error := some { code := -32603, message := "Internal error" } }
    ∧ (McpServer.handleRequest (fun _ => none) "t" { initDone := false }
        { id := some (.num 2), method := "resources/read",
          params := .read { uri := some "res://missing" } }).2
      = some { id := .num 2,
               error := some (internalErr ("Resource not found: " ++ "res://missing")) } :=
  claim_C5_amended_behavior (fun _ => none) "t" "t" {} "res://missing" rfl
    (by decide) (by decide) (.num 1) (.num 2) false

/-- Claim C7: a POST /mcp body that fails JSON parsing is answered by the
global error handler with HTTP 500 and the plain (non-JSON-RPC) body
error: "Internal Server Error" — not with HTTP 400 and a -32700 envelope
(that catch in handleMcpRequest is unreachable for body-parse failures,
since express.json raises before the route runs). -/
theorem claim_C7_parse_error_pipeline (dev : Bool) (jsEval : String → Option Int)
    (now : String) (s : ExpressState) (msg : String) :
    postMcp dev jsEval now s (.error msg)
      = (s, { status := 500,
              body := .plainErr "Internal Server Error"
                (if dev then msg else "An unexpected error occurred") }) :=
  rfl

end Mcp

namespace Mcp

/-- Claim C6: a tools/call of the Express calculate tool whose expression the
evaluator rejects (any rejection: the character sanitisation or the
arithmetic evaluation itself, for any evaluation oracle) is answered with a
successful result response whose result has isError true and a diagnostic
text block — never with a protocol-level error response. -/
theorem claim_C6_calculate_handled_failure (jsEval : String → Option Int)
    (now : String) (b : Bool) (args : Option ToolArgs) (i : RpcId) (msg : String)
    (h : McpServer.evalExpr jsEval (jsOrStr (args.bind ToolArgs.expression) "")
      = .error msg) :
    (McpServer.handleRequest jsEval now { initDone := b }
        { id := some i, method := "tools/call",
          params := .call { name := some "calculate", arguments := args } }).2
      = some { id := i,
               result := some (.toolCall
                 { content := [.text ("Error: " ++ msg)], isError := some true }) } := by
  simp [McpServer.handleRequest, McpServer.runHandler, McpServer.handleCallTool,
    Params.asCall, h, Except.map, defaultHandlers, List.lookup]

/-- Witness for C6: the expression "2+x" fails the sanitisation check. -/
theorem claim_C6_witness :
    (McpServer.handleRequest (fun _ => none) "t" { initDone := false }
        { id := some (.num 3), method := "tools/call",
          params := .call { name := some "calculate",
                            arguments := some { expression := some "2+x" } } }).2
      = some { id := .num 3,
               result := some (.toolCall
                 { content := [.text ("Error: " ++ "Invalid characters in expression")], isError := some true }) } :=
  claim_C6_calculate_handled_failure (fun _ => none) "t" false
    (some { expression := some "2+x" }) (.num 3)
    "Invalid characters in expression" (by rfl)

/-- Claim C10: a tools/call of the stdio calculate tool with operation divide
and second operand 0 is guarded: the divide branch never reaches the
division and the dispatcher answers with a successful result whose single
text block is "Error: Division by zero" — no protocol-level error. -/
theorem claim_C10_divide_by_zero_guard (now : String) (s : MCPState)
    (args : ToolArgs) (i : RpcId)
    (hcalc : (s.tools.lookup "calculate").isSome = true)
    (hop : args.operation = some "divide") (hb : args.b = some 0) :
    (MCPServer.handleRequest now s
        { id := some i, method := "tools/call",
          params := .call { name := some "calculate", arguments := some args } }).2
      = { id := some i,
          result := some (.toolCall { content := [.text "Error: Division by zero"] }) } := by
  obtain ⟨tl, htl⟩ := Option.isSome_iff_exists.mp hcalc
  simp [MCPServer.handleRequest, MCPServer.dispatch, MCPServer.callTool,
    Params.asCall, htl, MCPServer.executeTool, hop, hb, toNumber, jsNeqZero,
    Except.map]

/-- Witness for C10 on the state the stdio transport builds at startup. -/
theorem claim_C10_witness :
    (MCPServer.handleRequest "t" stdioSetupState
        { id := some (.num 9), method := "tools/call",
          params := .call { name := some "calculate",
                            arguments := some { operation := some "divide",
                                                a := some 5, b := some 0 } } }).2
      = { id := some (.num 9),
          result := some (.toolCall { content := [.text "Error: Division by zero"] }) } :=
  claim_C10_divide_by_zero_guard "t" stdioSetupState
    { operation := some "divide", a := some 5, b := some 0 } (.num 9)
    (by rfl) rfl rfl

end Mcp

namespace Mcp

/-- Membership after a `mapSet`: every entry of the updated map is an
original entry or the inserted pair. -/
theorem mem_mapSet {α : Type} (m : List (String × α)) (k : String) (v : α) :
    ∀ kv ∈ mapSet m k v, kv ∈ m ∨ kv = (k, v) := by
  induction m with
  | nil =>
      intro kv h
      simp [mapSet] at h
      right
      exact h
  | cons q rest ih =>
      intro kv h
      obtain ⟨k2, v2⟩ := q
      by_cases hk : k2 = k
      · rw [mapSet, if_pos hk] at h
        rcases List.mem_cons.mp h with h2 | h2
        · right; exact h2
        · left; exact List.mem_cons_of_mem _ h2
      · rw [mapSet, if_neg hk] at h
        rcases List.mem_cons.mp h with h2 | h2
        · left; exact h2 ▸ List.mem_cons_self _ _
        · rcases ih kv h2 with h3 | h3
          · left; exact List.mem_cons_of_mem _ h3
          · right; exact h3

/-- The key set after a `mapSet`: the old keys together with the new key. -/
theorem mapSet_keys {α : Type} (m : List (String × α)) (k x : String) (v : α) :
    x ∈ (mapSet m k v).map Prod.fst ↔ x ∈ m.map Prod.fst ∨ x = k := by
  induction m with
  | nil => simp [mapSet]
  | cons q rest ih =>
      obtain ⟨k2, v2⟩ := q
      by_cases hk : k2 = k
      · subst hk
        rw [mapSet, if_pos rfl]
        simp
        tauto
      · rw [mapSet, if_neg hk]
        simp [ih]
        tauto

/-- `mapSet` preserves distinctness of the keys. -/
theorem mapSet_keys_nodup {α : Type} (m : List (String × α)) (k : String) (v : α)
    (h : (m.map Prod.fst).Nodup) : ((mapSet m k v).map Prod.fst).Nodup := by
  induction m with
  | nil => simp [mapSet]
  | cons q rest ih =>
      obtain ⟨k2, v2⟩ := q
      simp only [List.map_cons, List.nodup_cons] at h
      by_cases hk : k2 = k
      · subst hk
        rw [mapSet, if_pos rfl]
        simp only [List.map_cons, List.nodup_cons]
        exact h
      · rw [mapSet, if_neg hk]
        simp only [List.map_cons, List.nodup_cons]
        constructor
        · intro hmem
          rcases (mapSet_keys rest k k2 v).mp hmem with h2 | h2
          · exact h.1 h2
          · exact hk h2
        · exact ih h.2

/-- In a registry whose values carry their own key and whose remaining keys
avoid `k`, no listed value is named `k`. -/
theorem filter_names_nil (rest : List (String × Tool)) (k : String)
    (hco : ∀ kv ∈ rest, (kv.2).name = kv.1) (hk : k ∉ rest.map Prod.fst) :
    (rest.map Prod.snd).filter (fun u => u.name == k) = [] := by
  induction rest with
  | nil => rfl
  | cons q rest ih =>
      obtain ⟨k2, v2⟩ := q
      simp only [List.map_cons, List.mem_cons, not_or] at hk
      have hv2 : v2.name = k2 := hco (k2, v2) (List.mem_cons_self _ _)
      have hco2 : ∀ kv ∈ rest, (kv.2).name = kv.1 :=
        fun kv h2 => hco kv (List.mem_cons_of_mem _ h2)
      have hne : (v2.name == k) = false := by
        rw [hv2]
        exact beq_false_of_ne (fun he => hk.1 he.symm)
      simp only [List.map_cons, List.filter_cons, hne]
      exact ih hco2 hk.2

/-- Registering a tool under its own name into a coherent registry with
distinct keys makes it the unique tool listed under that name. -/
theorem filter_mapSet (m : List (String × Tool)) (k : String) (t : Tool)
    (ht : t.name = k) (hnd : (m.map Prod.fst).Nodup)
    (hco : ∀ kv ∈ m, (kv.2).name = kv.1) :
    ((mapSet m k t).map Prod.snd).filter (fun u => u.name == k) = [t] := by
  induction m with
  | nil =>
      simp [mapSet, List.filter_cons, ht]
  | cons q rest ih =>
      obtain ⟨k2, v2⟩ := q
      simp only [List.map_cons, List.nodup_cons] at hnd
      have hco2 : ∀ kv ∈ rest, (kv.2).name = kv.1 :=
        fun kv h2 => hco kv (List.mem_cons_of_mem _ h2)
      by_cases hk : k2 = k
      · subst hk
        rw [mapSet, if_pos rfl]
        simp only [List.map_cons, List.filter_cons, ht, beq_self_eq_true]
        simp only [if_pos trivial]
        rw [filter_names_nil rest k2 hco2 hnd.1]
      · have hv2 : v2.name = k2 := hco (k2, v2) (List.mem_cons_self _ _)
        have hne : (v2.name == k) = false := by
          rw [hv2]
          exact beq_false_of_ne hk
        rw [mapSet, if_neg hk]
        simp only [List.map_cons, List.filter_cons, hne]
        exact ih hnd.2 hco2

end Mcp

namespace Mcp

/-- Claim C9: registering a Tool and calling tools/list returns that very
descriptor (all fields intact), exactly once under its name; and after
registering two descriptors with the same name the later one is the unique
descriptor listed under that name (last registration wins, no duplicate
keys). The hypotheses are the registry invariants maintained by registerTool:
distinct keys, each stored descriptor keyed by its own name. -/
theorem claim_C9_register_list_roundtrip (s : MCPState) (t t2 : Tool)
    (hnd : (s.tools.map Prod.fst).Nodup)
    (hco : ∀ kv ∈ s.tools, (kv.2).name = kv.1)
    (hname : t2.name = t.name) :
    t ∈ MCPServer.listTools (MCPServer.registerTool s t)
    ∧ (MCPServer.listTools (MCPServer.registerTool s t)).filter
        (fun u => u.name == t.name) = [t]
    ∧ (MCPServer.listTools
        (MCPServer.registerTool (MCPServer.registerTool s t2) t)).filter
        (fun u => u.name == t.name) = [t]
    ∧ (t2 ≠ t → t2 ∉ MCPServer.listTools
        (MCPServer.registerTool (MCPServer.registerTool s t2) t)) := by
  have h2 : (MCPServer.listTools (MCPServer.registerTool s t)).filter
      (fun u => u.name == t.name) = [t] :=
    filter_mapSet s.tools t.name t rfl hnd hco
  have h3 : (MCPServer.listTools
      (MCPServer.registerTool (MCPServer.registerTool s t2) t)).filter
      (fun u => u.name == t.name) = [t] := by
    have hnd2 : (((MCPServer.registerTool s t2).tools).map Prod.fst).Nodup :=
      mapSet_keys_nodup s.tools t2.name t2 hnd
    have hco2 : ∀ kv ∈ (MCPServer.registerTool s t2).tools, (kv.2).name = kv.1 := by
      intro kv hm
      rcases mem_mapSet s.tools t2.name t2 kv hm with h4 | h4
      · exact hco kv h4
      · rw [h4]
    exact filter_mapSet (MCPServer.registerTool s t2).tools t.name t rfl hnd2 hco2
  refine ⟨?_, h2, h3, ?_⟩
  · have hmem : t ∈ (MCPServer.listTools (MCPServer.registerTool s t)).filter
        (fun u => u.name == t.name) := by
      rw [h2]
      exact List.mem_singleton.mpr rfl
    exact List.mem_of_mem_filter hmem
  · intro hne hmem
    have hfil : t2 ∈ (MCPServer.listTools
        (MCPServer.registerTool (MCPServer.registerTool s t2) t)).filter
        (fun u => u.name == t.name) :=
      List.mem_filter.mpr ⟨hmem, by rw [hname]; exact beq_self_eq_true t.name⟩
    rw [h3] at hfil
    exact hne (List.mem_singleton.mp hfil)

/-- Witness for C9 on the empty registry and two same-named descriptors. -/
theorem claim_C9_witness :
    ({ name := "t1", inputSchema := .null } : Tool)
      ∈ MCPServer.listTools (MCPServer.registerTool {} { name := "t1", inputSchema := .null })
    ∧ (MCPServer.listTools
        (MCPServer.registerTool {} { name := "t1", inputSchema := .null })).filter
        (fun u => u.name == "t1") = [{ name := "t1", inputSchema := .null }]
    ∧ (MCPServer.listTools (MCPServer.registerTool
        (MCPServer.registerTool {} { name := "t1", description := some "old",
                                     inputSchema := .null })
        { name := "t1", inputSchema := .null })).filter
        (fun u => u.name == "t1") = [{ name := "t1", inputSchema := .null }]
    ∧ (({ name := "t1", description := some "old", inputSchema := .null } : Tool)
          ≠ { name := "t1", inputSchema := .null }
        → ({ name := "t1", description := some "old", inputSchema := .null } : Tool)
          ∉ MCPServer.listTools (MCPServer.registerTool
              (MCPServer.registerTool {} { name := "t1", description := some "old",
                                           inputSchema := .null })
              { name := "t1", inputSchema := .null })) :=
  claim_C9_register_list_roundtrip {} { name := "t1", inputSchema := .null }
    { name := "t1", description := some "old", inputSchema := .null }
    (by simp) (by simp) rfl

end Mcp

namespace Mcp

/-- A validated member of the loop contributes a response exactly when its id
field is present (not undefined). -/
theorem processOne_isSome (jsEval : String → Option Int) (now : String)
    (s : ExpressState) (v : MsgVal) (hv : isValidJsonRpcRequest v = true) :
    (processOne jsEval now s v).2.isSome = decide (v.id ≠ IdField.undef) := by
  unfold processOne
  rw [if_pos hv]
  rw [express_response_isSome]
  unfold MsgVal.toReq
  cases hid : v.id with
  | undef => simp
  | null => simp
  | str s2 => simp
  | num n => simp
  | other =>
      exfalso
      unfold isValidJsonRpcRequest at hv
      rw [hid] at hv
      simp at hv

/-- Over a batch of validated members the loop produces exactly one response
per member whose id is present (a Request), and none for the rest (the
Notifications). -/
theorem processList_length_valid (jsEval : String → Option Int) (now : String) :
    ∀ (vs : List MsgVal) (s : ExpressState),
      (∀ v ∈ vs, isValidJsonRpcRequest v = true) →
      (processList jsEval now s vs).2.length
        = vs.countP (fun v => v.id ≠ IdField.undef) := by
  intro vs
  induction vs with
  | nil => intro s h; rfl
  | cons v vs ih =>
      intro s h
      have hv := h v (List.mem_cons_self v vs)
      have hrest : ∀ w ∈ vs, isValidJsonRpcRequest w = true :=
        fun w hw => h w (List.mem_cons_of_mem v hw)
      have hx := processOne_isSome jsEval now s v hv
      have hlen : (processList jsEval now s (v :: vs)).2.length
          = (if (processOne jsEval now s v).2.isSome then 1 else 0)
            + (processList jsEval now (processOne jsEval now s v).1 vs).2.length := by
        simp only [processList]
        cases (processOne jsEval now s v).2 with
        | none => simp
        | some r => simp; omega
      rw [hlen, ih _ hrest, hx, List.countP_cons]
      by_cases hc : v.id = IdField.undef
      · simp [hc]
      · simp [hc]
        omega

end Mcp

namespace Mcp

/-- Claim C8: a batch POST /mcp of validated members is answered with the
response array, holding exactly one entry per Request member and none per
Notification member; a single non-batch Notification is answered 204 with no
body. -/
theorem claim_C8_batch_and_single_notification (jsEval : String → Option Int)
    (now : String) (s : ExpressState) (vs : List MsgVal) (v : MsgVal)
    (hall : ∀ w ∈ vs, isValidJsonRpcRequest w = true)
    (hv : isValidJsonRpcRequest v = true) (hid : v.id = IdField.undef) :
    ((handleMcpRequest jsEval now s (.batch vs)).2
        = { status := 200, body := .jsonArr (processList jsEval now s vs).2 }
      ∧ (processList jsEval now s vs).2.length
        = vs.countP (fun w => w.id ≠ IdField.undef))
    ∧ (handleMcpRequest jsEval now s (.single v)).2
        = { status := 204, body := .empty } := by
  refine ⟨⟨rfl, processList_length_valid jsEval now vs s hall⟩, ?_⟩
  have hx := processOne_isSome jsEval now s v hv
  rw [hid] at hx
  simp at hx
  have hnone : (processOne jsEval now s v).2 = none :=
    Option.not_isSome_iff_eq_none.mp (by simp [hx])
  simp [handleMcpRequest, processList, hnone]

/-- A validated Notification message value (no id field). -/
def notifMsg : MsgVal := { jsonrpc := some "2.0", method := some "notify" }

/-- A validated Request message value with id 1. -/
def pingMsg : MsgVal :=
  { jsonrpc := some "2.0", method := some "ping", id := .num 1 }

/-- Witness for C8: a batch of one Notification and one Request yields a
length-1 array, and the single Notification alone yields 204. -/
theorem claim_C8_witness :
    ((handleMcpRequest (fun _ => none) "t" {} (.batch [notifMsg, pingMsg])).2
        = { status := 200,
            body := .jsonArr (processList (fun _ => none) "t" {} [notifMsg, pingMsg]).2 }
      ∧ (processList (fun _ => none) "t" {} [notifMsg, pingMsg]).2.length
        = [notifMsg, pingMsg].countP (fun w => w.id ≠ IdField.undef))
    ∧ (handleMcpRequest (fun _ => none) "t" {} (.single notifMsg)).2
        = { status := 204, body := .empty } :=
  claim_C8_batch_and_single_notification (fun _ => none) "t" {}
    [notifMsg, pingMsg] notifMsg (by decide) (by decide) rfl

end Mcp
